import Mathlib

/-!
Verification of the PumpPonies deposit reconciliation and settlement engine.

The definitions below are a shallow embedding of the backend source:
the database layer (schema.js), the transfer classifier
(WalletService.parseSOLTransfer), the deposit monitor (DepositMonitor in
services), the settlement calculator (DepositMonitor.calculateWinnings),
the admin race-end HTTP handler, the payout dispatcher (PayoutService) and
the private-key encryption helpers.  JavaScript numbers are modelled as
rationals, SQL rows as structures, tables as lists, and fallible inserts as
Except values.
-/

/-- A row of the races table.  status ranges over pending, open, closed,
completed; winner is NULL until the race is completed. -/
structure Race where
  id : String
  status : String
  winner : Option Int
  horseCount : Nat
  completedAt : Option Nat
deriving DecidableEq

/-- A row of the deposit_addresses table.  user_wallet is a nullable column;
status starts at waiting. -/
structure DepositAddr where
  id : String
  address : String
  privateKey : String
  raceId : String
  horseNumber : Int
  userWallet : Option String
  status : String
  amountReceived : Rat
  txSignature : Option String
  expiresAt : Nat
deriving DecidableEq

/-- A row of the bets table.  user_wallet is declared TEXT NOT NULL, so it is
a plain String here; an insert attempt with a null wallet is modelled as an
Except error (see createBet). -/
structure Bet where
  id : String
  raceId : String
  horseNumber : Int
  depositAddressId : String
  userWallet : String
  amount : Rat
  txSignature : String
  oddsAtPlacement : Rat
  winnings : Option Rat
  payoutStatus : String
deriving DecidableEq

/-- A row of the refunds table (user_wallet TEXT NOT NULL).  The table has no
column for the inbound transfer; originSig is a ghost field recording the
signature of the classified transfer whose processing queued this refund,
used only to state attribution properties. -/
structure Refund where
  id : String
  depositId : String
  userWallet : String
  amount : Rat
  reason : String
  status : String
  originSig : String
deriving DecidableEq

/-- A row of the payouts table (user_wallet TEXT NOT NULL). -/
structure Payout where
  id : String
  betId : String
  userWallet : String
  amount : Rat
  status : String
deriving DecidableEq

/-- The persistent database state: one list per table. -/
structure DB where
  races : List Race
  deposits : List DepositAddr
  bets : List Bet
  refunds : List Refund
  payouts : List Payout
deriving DecidableEq

/-- PumpPoniesDB.getRace (SELECT * FROM races WHERE id = ?). -/
def getRace (db : DB) (id : String) : Option Race :=
  db.races.find? (fun r => r.id == id)

/-- PumpPoniesDB.getDepositAddress (SELECT * FROM deposit_addresses WHERE id = ?). -/
def getDepositAddress (db : DB) (id : String) : Option DepositAddr :=
  db.deposits.find? (fun d => d.id == id)

/-- PumpPoniesDB.updateDepositStatus: sets status, and sets amount_received,
transaction_signature and user_wallet only for the arguments that are not
null (the JS function skips null arguments). -/
def updateDepositStatus (db : DB) (id status : String) (amountReceived : Option Rat)
    (txSig : Option String) (userWallet : Option String) : DB :=
  { db with deposits := db.deposits.map (fun d =>
      if d.id == id then
        { d with
          status := status
          amountReceived := amountReceived.getD d.amountReceived
          txSignature := match txSig with | some s => some s | none => d.txSignature
          userWallet := match userWallet with | some u => some u | none => d.userWallet }
      else d) }

/-- PumpPoniesDB.setRaceWinner: UPDATE races SET winner, status completed,
completed_at.  No precondition on the current status. -/
def setRaceWinner (db : DB) (id : String) (winner : Int) (now : Nat) : DB :=
  { db with races := db.races.map (fun r =>
      if r.id == id then
        { r with winner := some winner, status := "completed", completedAt := some now }
      else r) }

/-- PumpPoniesDB.getBetsForRace (SELECT * FROM bets WHERE race_id = ? ORDER BY created_at;
insertion order models created_at order). -/
def betsForRace (db : DB) (raceId : String) : List Bet :=
  db.bets.filter (fun b => b.raceId == raceId)

/-- The per-horse pool from PumpPoniesDB.getRacePoolStats: SUM(amount) of the
race's bets grouped by horse_number, 0 for a horse with no bets. -/
def poolAmount (db : DB) (raceId : String) (h : Int) : Rat :=
  (((betsForRace db raceId).filter (fun b => b.horseNumber == h)).map (fun b => b.amount)).sum

/-- The sum of all pool amounts of getRacePoolStats, i.e. the sum of every
bet amount for the race (Object.values(pools).reduce in the callers). -/
def totalPoolOf (db : DB) (raceId : String) : Rat :=
  ((betsForRace db raceId).map (fun b => b.amount)).sum

/-- PumpPoniesDB.createBet (INSERT INTO bets ...).  The bets table declares
user_wallet TEXT NOT NULL, so the insert fails when the wallet passed down
from the classified transfer is null. -/
def createBet (db : DB) (id raceId : String) (horseNumber : Int) (depositAddressId : String)
    (userWallet : Option String) (amount : Rat) (txSig : String) (odds : Rat) :
    Except String DB :=
  match userWallet with
  | none => Except.error "NOT NULL constraint failed: bets.user_wallet"
  | some w =>
      Except.ok { db with bets := db.bets ++
        [⟨id, raceId, horseNumber, depositAddressId, w, amount, txSig, odds, none, "pending"⟩] }

/-- INSERT INTO refunds (from DepositMonitor.queueRefund).  The refunds table
declares user_wallet TEXT NOT NULL, so the insert fails for a null sender.
originSig is the ghost attribution field of Refund. -/
def insertRefund (db : DB) (id depositId : String) (userWallet : Option String)
    (amount : Rat) (reason : String) (originSig : String) : Except String DB :=
  match userWallet with
  | none => Except.error "NOT NULL constraint failed: refunds.user_wallet"
  | some w =>
      Except.ok { db with refunds := db.refunds ++
        [⟨id, depositId, w, amount, reason, "pending", originSig⟩] }

/-- PumpPoniesDB.createPayout (INSERT INTO payouts ...); the caller always
passes the non-null user_wallet of a bets row. -/
def createPayout (db : DB) (id betId userWallet : String) (amount : Rat) : DB :=
  { db with payouts := db.payouts ++ [⟨id, betId, userWallet, amount, "pending"⟩] }

/-- PumpPoniesDB.updateBetWinnings (UPDATE bets SET winnings = ? WHERE id = ?). -/
def updateBetWinnings (db : DB) (betId : String) (w : Rat) : DB :=
  { db with bets := db.bets.map (fun b => if b.id == betId then { b with winnings := some w } else b) }

/-- uuidv4() produces a fresh identifier; modelled as an identifier that is
fresh for the refunds table. -/
def freshRefundId (db : DB) : String := "refund" ++ toString db.refunds.length

/-- uuidv4() for a new bets row. -/
def freshBetId (db : DB) : String := "bet" ++ toString db.bets.length

/-- uuidv4() for a new payouts row. -/
def freshPayoutId (db : DB) : String := "payout" ++ toString db.payouts.length

/-! ## Transfer classifier (WalletService.parseSOLTransfer) -/

/-- LAMPORTS_PER_SOL. -/
def lamportsPerSol : Int := 1000000000

/-- One account of a parsed transaction: accountKeys[i].pubkey together with
preBalances[i] and postBalances[i] (lamports). -/
structure AccountBalance where
  pubkey : String
  pre : Int
  post : Int
deriving DecidableEq

/-- A parsed transaction as consumed by parseSOLTransfer: whether tx.meta.err
is set, the account list with pre/post balances, and
tx.transaction.signatures. -/
structure ParsedTx where
  failed : Bool
  accounts : List AccountBalance
  sigs : List String
deriving DecidableEq

/-- The normalized transfer record returned by parseSOLTransfer:
fromAddress may be null when no other account shows a balance decrease. -/
structure Transfer where
  fromAddress : Option String
  amount : Rat
  signature : String
deriving DecidableEq

/-- The sender-search loop of parseSOLTransfer: the first account, in list
order and skipping the deposit address itself, whose balance decreased. -/
def findSender : List AccountBalance → Nat → Nat → Option String
  | [], _, _ => none
  | a :: rest, i, toIndex =>
    if i == toIndex then findSender rest (i + 1) toIndex
    else if a.post - a.pre < 0 then some a.pubkey
    else findSender rest (i + 1) toIndex

/-- WalletService.parseSOLTransfer: null for a missing or failed transaction
or when the watched address is absent or its balance did not increase;
otherwise the credited amount in SOL, the first balance-decreasing account as
sender (possibly null), and the transaction's first signature. -/
def parseSOLTransfer (txq : Option ParsedTx) (toAddress : String) : Option Transfer :=
  match txq with
  | none => none
  | some tx =>
    if tx.failed then none
    else
      match tx.accounts.findIdx? (fun a => a.pubkey == toAddress) with
      | none => none
      | some toIndex =>
        let amountLamports : Int := ((tx.accounts.get? toIndex).map (fun a => a.post - a.pre)).getD 0
        if amountLamports ≤ 0 then none
        else some
          { fromAddress := findSender tx.accounts 0 toIndex
            amount := (amountLamports : Rat) / (lamportsPerSol : Rat)
            signature := tx.sigs.headD "" }

/-! ## Deposit monitor (DepositMonitor in the services layer) -/

/-- The race-open test of processDeposit: the owning race exists and its
status is open. -/
def raceIsOpen (db : DB) (raceId : String) : Bool :=
  match getRace db raceId with
  | some race => race.status == "open"
  | none => false

/-- Monitor configuration: minBet and maxBet in SOL. -/
structure MonitorConfig where
  minBet : Rat
  maxBet : Rat
deriving DecidableEq

/-- An entry of the monitor's in-memory refundQueue, as built by
DepositMonitor.queueRefund before the database insert; user_wallet is the
possibly-null classified sender. -/
structure QueuedRefund where
  depositId : String
  depositAddress : String
  userWallet : Option String
  amount : Rat
  reason : String
deriving DecidableEq

/-- The monitor's process state: the database, the process-wide set of
already-consumed transaction signatures, and the in-memory refund queue. -/
structure MonState where
  db : DB
  processedSignatures : List String
  refundQueue : List QueuedRefund
deriving DecidableEq

/-- DepositMonitor.queueRefund: builds the refund object and pushes it onto
the in-memory refundQueue, then runs the INSERT INTO refunds.  The push
happens before the insert, so it survives even when the insert fails on the
NOT NULL user_wallet constraint.  The Bool reports whether the insert
succeeded (a failed insert raises, which the caller's catch swallows). -/
def queueRefund (st : MonState) (deposit : DepositAddr) (t : Transfer) (reason : String) :
    MonState × Bool :=
  let q : QueuedRefund := ⟨deposit.id, deposit.address, t.fromAddress, t.amount, reason⟩
  let st1 := { st with refundQueue := st.refundQueue ++ [q] }
  match insertRefund st1.db (freshRefundId st1.db) deposit.id t.fromAddress t.amount reason
      t.signature with
  | Except.ok db2 => ({ st1 with db := db2 }, true)
  | Except.error _ => (st1, false)

/-- DepositMonitor.processDeposit: validates minimum, then maximum, then that
the owning race is open, updating the deposit row and queueing a refund on
each rejection; otherwise confirms the deposit, computes odds at placement
from the current pools plus this amount, and inserts the bet.  The Bool
reports whether the JS function returned without throwing (the inserts throw
for a null sender wallet). -/
def processDeposit (cfg : MonitorConfig) (st : MonState) (deposit : DepositAddr) (t : Transfer) :
    MonState × Bool :=
  if t.amount < cfg.minBet then
    let dbr := updateDepositStatus st.db deposit.id "rejected_too_small"
      (some t.amount) (some t.signature) t.fromAddress
    queueRefund { st with db := dbr } deposit t "Amount below minimum bet"
  else if cfg.maxBet < t.amount then
    let dbr := updateDepositStatus st.db deposit.id "rejected_over_max"
      (some t.amount) (some t.signature) t.fromAddress
    queueRefund { st with db := dbr } deposit t "Amount exceeds maximum bet"
  else
    if raceIsOpen st.db deposit.raceId = false then
      let dbr := updateDepositStatus st.db deposit.id "rejected_race_closed"
        (some t.amount) (some t.signature) t.fromAddress
      queueRefund { st with db := dbr } deposit t "Race is not open for betting"
    else
      let db1 := updateDepositStatus st.db deposit.id "confirmed"
          (some t.amount) (some t.signature) t.fromAddress
      let totalPool := totalPoolOf db1 deposit.raceId + t.amount
      let horsePool := poolAmount db1 deposit.raceId deposit.horseNumber + t.amount
      let odds := totalPool / horsePool
      match createBet db1 (freshBetId db1) deposit.raceId deposit.horseNumber deposit.id
          t.fromAddress t.amount t.signature odds with
      | Except.ok db2 => ({ st with db := db2 }, true)
      | Except.error _ => ({ st with db := db1 }, false)

/-- The ledger as observed through WalletService: per-address balances in
SOL, per-address recent transaction signatures, and the parsed transaction
behind each signature, all as finite association lists. -/
structure World where
  balances : List (String × Rat)
  recent : List (String × List String)
  txs : List (String × ParsedTx)
deriving DecidableEq

/-- WalletService.getBalance (0 for an unknown address, matching the error
fallback). -/
def World.balance (w : World) (a : String) : Rat :=
  ((w.balances.find? (fun p => p.1 == a)).map (fun p => p.2)).getD 0

/-- WalletService.getRecentTransactions before the limit is applied. -/
def World.recentTxs (w : World) (a : String) : List String :=
  ((w.recent.find? (fun p => p.1 == a)).map (fun p => p.2)).getD []

/-- WalletService.getTransaction. -/
def World.txOf (w : World) (s : String) : Option ParsedTx :=
  (w.txs.find? (fun p => p.1 == s)).map (fun p => p.2)

/-- Well-formed ledger: a transaction fetched by signature s lists s as its
first signature (true of any real ledger; getSignaturesForAddress and
getParsedTransaction agree on the identifying signature). -/
def World.Wf (w : World) : Prop :=
  ∀ p ∈ w.txs, p.2.sigs.headD "" = p.1

instance (w : World) : Decidable w.Wf := by
  unfold World.Wf
  infer_instance

/-- The transaction loop of DepositMonitor.checkSingleDeposit: skip
signatures already in processedSignatures; on the first transaction that
classifies as a positive transfer, process the deposit and stop (break); the
signature is recorded only when processing did not throw.  Transactions that
do not classify are neither processed nor recorded. -/
def checkTxs (cfg : MonitorConfig) (w : World) (deposit : DepositAddr) :
    MonState → List String → MonState
  | st, [] => st
  | st, sig :: rest =>
    if sig ∈ st.processedSignatures then checkTxs cfg w deposit st rest
    else
      match parseSOLTransfer (w.txOf sig) deposit.address with
      | some t =>
        if 0 < t.amount then
          let r := processDeposit cfg st deposit t
          if r.2 then { r.1 with processedSignatures := sig :: r.1.processedSignatures }
          else r.1
        else checkTxs cfg w deposit st rest
      | none => checkTxs cfg w deposit st rest

/-- DepositMonitor.checkSingleDeposit: skip the address when its balance is
zero, otherwise examine its 5 most recent transactions. -/
def checkSingleDeposit (cfg : MonitorConfig) (w : World) (st : MonState) (deposit : DepositAddr) :
    MonState :=
  if w.balance deposit.address ≤ 0 then st
  else checkTxs cfg w deposit st ((w.recentTxs deposit.address).take 5)

/-- PumpPoniesDB.getWaitingDeposits: status waiting with expires_at still in
the future. -/
def getWaitingDeposits (db : DB) (now : Nat) : List DepositAddr :=
  db.deposits.filter (fun d => d.status == "waiting" && decide (now < d.expiresAt))

/-- PumpPoniesDB.getExpiredDeposits: status waiting with expires_at passed. -/
def getExpiredDeposits (db : DB) (now : Nat) : List DepositAddr :=
  db.deposits.filter (fun d => d.status == "waiting" && decide (d.expiresAt ≤ now))

/-- DepositMonitor.cleanupExpiredDeposits: for each expired waiting address,
re-check the balance; when funds are present the address is skipped
(continue), otherwise it is marked expired. -/
def cleanupExpiredDeposits (w : World) (now : Nat) (st : MonState) : MonState :=
  { st with db := (getExpiredDeposits st.db now).foldl (fun db d =>
      if 0 < w.balance d.address then db
      else updateDepositStatus db d.id "expired" none none none) st.db }

/-- One DepositMonitor.checkDeposits cycle: fetch the waiting deposits,
check each in turn, then sweep the expired ones. -/
def runCycle (cfg : MonitorConfig) (w : World) (now : Nat) (st : MonState) : MonState :=
  let st1 := (getWaitingDeposits st.db now).foldl (fun s d => checkSingleDeposit cfg w s d) st
  cleanupExpiredDeposits w now st1

/-- A sequence of monitor cycles, each observing the ledger state and clock
of its moment. -/
def runCycles (cfg : MonitorConfig) : List (World × Nat) → MonState → MonState
  | [], st => st
  | c :: rest, st => runCycles cfg rest (runCycle cfg c.1 c.2 st)

/-! ## Settlement (DepositMonitor.calculateWinnings) and the race-end handler -/

/-- One entry of the winners array returned by calculateWinnings. -/
structure WinnerEntry where
  betId : String
  userWallet : String
  betAmount : Rat
  winnings : Rat
  totalPayout : Rat
deriving DecidableEq

/-- The result object returned by calculateWinnings. -/
structure SettleResult where
  raceId : String
  winningHorse : Int
  totalPool : Rat
  winningPool : Rat
  losingPool : Rat
  houseCut : Rat
  distributed : Rat
  winners : List WinnerEntry
deriving DecidableEq

/-- The per-bet body of the calculateWinnings loop: a winning bet gets its
proportional share of the distributable pool written back and one payout row
for stake plus winnings; a losing bet gets winnings 0. -/
def settleStep (winningHorse : Int) (winningPool distributablePool : Rat)
    (acc : DB × List WinnerEntry) (b : Bet) : DB × List WinnerEntry :=
  if b.horseNumber == winningHorse then
    let share := b.amount / winningPool
    let winnings := distributablePool * share
    let totalPayout := b.amount + winnings
    let db1 := updateBetWinnings acc.1 b.id winnings
    let db2 := createPayout db1 (freshPayoutId db1) b.id b.userWallet totalPayout
    (db2, acc.2 ++ [⟨b.id, b.userWallet, b.amount, winnings, totalPayout⟩])
  else
    (updateBetWinnings acc.1 b.id 0, acc.2)

/-- DepositMonitor.calculateWinnings: pari-mutuel settlement over the race's
bets.  No check that the race has not been settled before; every call
recomputes winnings and inserts fresh payout rows. -/
def calculateWinnings (db : DB) (houseEdge : Rat) (raceId : String) (winningHorse : Int) :
    DB × SettleResult :=
  let bets := betsForRace db raceId
  let totalPool := totalPoolOf db raceId
  let winningPool := poolAmount db raceId winningHorse
  let losingPool := totalPool - winningPool
  let distributablePool := losingPool * (1 - houseEdge)
  let r := bets.foldl (settleStep winningHorse winningPool distributablePool) (db, [])
  (r.1, ⟨raceId, winningHorse, totalPool, winningPool, losingPool,
    losingPool * houseEdge, distributablePool, r.2⟩)

/-- The outcome of the POST /admin/race/end handler: the resulting database,
the error of the rejecting respond call if any, and the settlement results
on success. -/
structure EndRaceOutcome where
  db : DB
  error : Option String
  result : Option SettleResult
deriving DecidableEq

/-- The POST /admin/race/end handler: rejects a missing race_id or winner
(JS truthiness, so winner 0 also rejects), a race id with no row, and a
winner outside 1..race.horses.length; otherwise it calls calculateWinnings
and then setRaceWinner.  The current race status is never consulted. -/
def adminRaceEnd (db : DB) (houseEdge : Rat) (now : Nat) (raceId : String) (winner : Int) :
    EndRaceOutcome :=
  if raceId = "" ∨ winner = 0 then ⟨db, some "Missing race_id or winner", none⟩
  else
    match getRace db raceId with
    | none => ⟨db, some "Race not found", none⟩
    | some race =>
      if winner < 1 ∨ (race.horseCount : Int) < winner then
        ⟨db, some "Invalid winner", none⟩
      else
        let r := calculateWinnings db houseEdge raceId winner
        let db2 := setRaceWinner r.1 raceId winner now
        ⟨db2, none, some r.2⟩

/-! ## Private-key encryption (encryption utils and createDepositAddress) -/

/-- encryptPrivateKey: throws unless the secret is at least 32 characters,
otherwise produces the salt:iv:authTag:ciphertext envelope; the
AES-256-GCM envelope construction is abstracted as the cipher function. -/
def encryptPrivateKey (privateKey secret : String) (cipher : String → String) :
    Except String String :=
  if secret.length < 32 then Except.error "ENCRYPTION_SECRET must be at least 32 characters"
  else Except.ok (cipher privateKey)

/-- The stored private_key computed by PumpPoniesDB.createDepositAddress:
with no configured secret (none, or the falsy empty string) the plaintext is
stored; with a configured secret the key is encrypted, but an encryption
error is caught and the plaintext is stored as fallback. -/
def storedPrivateKey (secret : Option String) (cipher : String → String)
    (privateKey : String) : String :=
  match secret with
  | none => privateKey
  | some s =>
    if s = "" then privateKey
    else
      match encryptPrivateKey privateKey s cipher with
      | Except.ok e => e
      | Except.error _ => privateKey

/-- PumpPoniesDB.createDepositAddress: inserts a waiting deposit_addresses
row whose private_key column holds storedPrivateKey. -/
def createDepositAddress (db : DB) (secret : Option String) (cipher : String → String)
    (id address privateKey raceId : String) (horseNumber : Int) (expiresAt : Nat)
    (userWallet : Option String) : DB :=
  { db with deposits := db.deposits ++
      [⟨id, address, storedPrivateKey secret cipher privateKey, raceId, horseNumber,
        userWallet, "waiting", 0, none, expiresAt⟩] }

/-- The startup warning of the PumpPoniesDB constructor (and the server
bootstrap): emitted when the encryption secret is unset or shorter than 32
characters. -/
def encryptionWarningAtStart : Option String → Bool
  | none => true
  | some s => s.length < 32

/-! ## Payout dispatcher (PayoutService): outbound flows and re-entrancy

The three admin-triggered flows run over await boundaries, so two
invocations of the same flow can interleave.  Each flow is modelled as a
small program: an initial fetch step that snapshots the rows to work on,
then one step per row.  A scheduler interleaves two invocations; every
outbound transfer is tagged with the invocation that sent it. -/

/-- new PublicKey(wallet): throws for null and for a malformed string
(modelled as the empty string); any other stored wallet is a valid key. -/
def isValidWallet : Option String → Bool
  | none => false
  | some w => w != ""

/-- The shared mutable context of the dispatcher flows: the database,
per-address balances in lamports, the outbound transfers already submitted
(tagged with the sending invocation), and PayoutService.isProcessing. -/
structure FlowState where
  db : DB
  lamports : List (String × Int)
  sent : List (Nat × String × Int)
  payoutsInFlight : Bool
deriving DecidableEq

/-- connection.getBalance for a deposit or treasury address (lamports). -/
def FlowState.balanceOf (w : FlowState) (a : String) : Int :=
  ((w.lamports.find? (fun p => p.1 == a)).map (fun p => p.2)).getD 0

/-- Overwrite an address balance (the effect of a confirmed transfer). -/
def FlowState.setBalance (w : FlowState) (a : String) (v : Int) : FlowState :=
  { w with lamports := (a, v) :: w.lamports.filter (fun p => p.1 != a) }

/-- UPDATE refunds SET status ... WHERE id = ?. -/
def setRefundStatus (db : DB) (id status : String) : DB :=
  { db with refunds := db.refunds.map (fun r => if r.id == id then { r with status := status } else r) }

/-- UPDATE payouts SET status ... WHERE id = ?. -/
def setPayoutStatus (db : DB) (id status : String) : DB :=
  { db with payouts := db.payouts.map (fun p => if p.id == id then { p with status := status } else p) }

/-- UPDATE bets SET payout_status = paid WHERE id = ? (after a payout is sent). -/
def setBetPaid (db : DB) (betId : String) : DB :=
  { db with bets := db.bets.map (fun b => if b.id == betId then { b with payoutStatus := "paid" } else b) }

/-- SELECT * FROM refunds WHERE status = pending ORDER BY created_at. -/
def pendingRefunds (db : DB) : List Refund :=
  db.refunds.filter (fun r => r.status == "pending")

/-- SELECT * FROM payouts WHERE status = pending ORDER BY created_at. -/
def pendingPayouts (db : DB) : List Payout :=
  db.payouts.filter (fun p => p.status == "pending")

/-- SELECT * FROM deposit_addresses WHERE status = confirmed. -/
def confirmedDeposits (db : DB) : List DepositAddr :=
  db.deposits.filter (fun d => d.status == "confirmed")

/-- The network fee reserved by processRefund (lamports). -/
def refundFee : Int := 5000

/-- The fee reserved by collectFromDepositAddress (lamports). -/
def collectFee : Int := 10000

/-- One iteration of the processAllRefunds loop over its snapshot: decrypt
the key, mark the refund processing, validate the recipient, check the
address balance, send balance minus fee back to the user and mark completed;
any raised error is caught and the refund is marked failed.  No check that
the refund is still pending.  A successful send drains the address. -/
def refundProcessOne (tag : Nat) (w : FlowState) (r : Refund) : FlowState :=
  match getDepositAddress w.db r.depositId with
  | none => { w with db := setRefundStatus w.db r.id "failed" }
  | some d =>
    if d.privateKey = "" then { w with db := setRefundStatus w.db r.id "failed" }
    else
      let w1 := { w with db := setRefundStatus w.db r.id "processing" }
      if isValidWallet (some r.userWallet) = false then
        { w1 with db := setRefundStatus w1.db r.id "failed" }
      else
        let bal := w1.balanceOf d.address
        if bal ≤ 0 then { w1 with db := setRefundStatus w1.db r.id "failed" }
        else if bal - refundFee ≤ 0 then { w1 with db := setRefundStatus w1.db r.id "failed" }
        else
          let w2 := w1.setBalance d.address 0
          { w2 with
            db := setRefundStatus w2.db r.id "completed"
            sent := w2.sent ++ [(tag, r.id, bal - refundFee)] }

/-- One iteration of the collectAllDeposits loop over its snapshot of
confirmed deposits: skip when the key cannot be decrypted, skip balances too
low to cover the fee, otherwise sweep balance minus fee to the treasury,
splitting off floor(amount * houseEdge) when a house wallet is configured. -/
def collectProcessOne (houseEdge : Rat) (houseWallet : Option String) (tag : Nat)
    (w : FlowState) (d : DepositAddr) : FlowState :=
  if d.privateKey = "" then w
  else
    let bal := w.balanceOf d.address
    if bal ≤ 0 then w
    else
      let amountToSend := bal - collectFee
      if amountToSend ≤ 0 then w
      else
        let houseCut : Int := match houseWallet with
          | some _ => Int.floor ((amountToSend : Rat) * houseEdge)
          | none => 0
        let masterAmount := amountToSend - houseCut
        let w1 := w.setBalance d.address 0
        let houseSends : List (Nat × String × Int) := match houseWallet with
          | some _ => if 0 < houseCut then [(tag, d.id, houseCut)] else []
          | none => []
        { w1 with sent := w1.sent ++ [(tag, d.id, masterAmount)] ++ houseSends }

/-- One iteration of the processAllPayouts loop: mark the payout processing,
validate the recipient, send the amount from the treasury and mark the
payout completed and the bet paid; a raised error marks the payout failed.
The treasury balance shortfall is only warned about, never a stop. -/
def payoutProcessOne (tag : Nat) (w : FlowState) (p : Payout) : FlowState :=
  let w1 := { w with db := setPayoutStatus w.db p.id "processing" }
  if isValidWallet (some p.userWallet) = false then
    { w1 with db := setPayoutStatus w1.db p.id "failed" }
  else
    let lam : Int := Int.floor (p.amount * (lamportsPerSol : Rat))
    let w2 := { w1 with sent := w1.sent ++ [(tag, p.id, lam)] }
    { w2 with db := setBetPaid (setPayoutStatus w2.db p.id "completed") p.betId }

/-- The program counter of one dispatcher invocation: not yet started, in
the loop with the remaining snapshot, or returned. -/
inductive FlowPC (α : Type) where
  | start : FlowPC α
  | loop : List α → FlowPC α
  | done : FlowPC α
deriving DecidableEq

/-- One step of a processAllRefunds invocation.  The function has no
in-flight guard: the entry step only snapshots the pending refunds. -/
def refundStep (tag : Nat) (w : FlowState) : FlowPC Refund → FlowState × FlowPC Refund
  | FlowPC.start => (w, FlowPC.loop (pendingRefunds w.db))
  | FlowPC.loop [] => (w, FlowPC.done)
  | FlowPC.loop (r :: rest) => (refundProcessOne tag w r, FlowPC.loop rest)
  | FlowPC.done => (w, FlowPC.done)

/-- One step of a collectAllDeposits invocation; also unguarded. -/
def collectStep (houseEdge : Rat) (houseWallet : Option String) (tag : Nat) (w : FlowState) :
    FlowPC DepositAddr → FlowState × FlowPC DepositAddr
  | FlowPC.start => (w, FlowPC.loop (confirmedDeposits w.db))
  | FlowPC.loop [] => (w, FlowPC.done)
  | FlowPC.loop (d :: rest) => (collectProcessOne houseEdge houseWallet tag w d, FlowPC.loop rest)
  | FlowPC.done => (w, FlowPC.done)

/-- One step of a processAllPayouts invocation: the entry step returns
immediately when isProcessing is already set (or no master wallet is
configured), otherwise sets the flag and snapshots the pending payouts; the
final step clears the flag (the finally block). -/
def payoutStep (masterWallet : Bool) (tag : Nat) (w : FlowState) :
    FlowPC Payout → FlowState × FlowPC Payout
  | FlowPC.start =>
    if w.payoutsInFlight then (w, FlowPC.done)
    else if masterWallet = false then (w, FlowPC.done)
    else ({ w with payoutsInFlight := true }, FlowPC.loop (pendingPayouts w.db))
  | FlowPC.loop [] => ({ w with payoutsInFlight := false }, FlowPC.done)
  | FlowPC.loop (p :: rest) => (payoutProcessOne tag w p, FlowPC.loop rest)
  | FlowPC.done => (w, FlowPC.done)

/-- Interleave two invocations of one flow under a schedule: true steps the
first invocation (tag 1), false steps the second (tag 2).  Steps taken at
FlowPC.done are no-ops, so a schedule entry never fabricates work. -/
def runTwo {α : Type} (step : Nat → FlowState → FlowPC α → FlowState × FlowPC α)
    (w : FlowState) (p1 p2 : FlowPC α) : List Bool → FlowState × FlowPC α × FlowPC α
  | [] => (w, p1, p2)
  | c :: rest =>
    if c then
      let r := step 1 w p1
      runTwo step r.1 r.2 p2 rest
    else
      let r := step 2 w p2
      runTwo step r.1 p1 r.2 rest

/-! ## Derived definitions used in the claim statements -/

/-- The odds-at-placement expression of DepositMonitor.processDeposit for
the next bettor: (total pool + this amount) / (chosen-outcome pool + this
amount). -/
def nextBettorOdds (db : DB) (raceId : String) (h : Int) (amount : Rat) : Rat :=
  (totalPoolOf db raceId + amount) / (poolAmount db raceId h + amount)

/-- The number of bets rows carrying a given inbound transfer signature. -/
def betsWithSig (db : DB) (s : String) : Nat :=
  (db.bets.filter (fun b => b.txSignature == s)).length

/-- The number of refunds rows attributable to a given inbound transfer
signature (via the ghost originSig field). -/
def refundsWithSig (db : DB) (s : String) : Nat :=
  (db.refunds.filter (fun r => r.originSig == s)).length

/-- Total records consumed from one external transfer signature. -/
def consumedCount (db : DB) (s : String) : Nat :=
  betsWithSig db s + refundsWithSig db s

/-- The at-most-once invariant for one external signature: at most one
bet-or-refund record consumed from it, and once one exists the signature is
in the monitor's processed set. -/
def SigInv (st : MonState) (s : String) : Prop :=
  consumedCount st.db s ≤ 1 ∧ (1 ≤ consumedCount st.db s → s ∈ st.processedSignatures)

/-! ## Concrete fixtures used by the claim theorems and witnesses -/

/-- Scenario A database: two bets on race r1, 10 SOL on horse 1 and 5 SOL on
horse 2. -/
def dbC2 : DB :=
  ⟨[⟨"r1", "closed", none, 2, none⟩], [],
   [⟨"b1", "r1", 1, "d1", "W1", 10, "sig1", 3/2, none, "pending"⟩,
    ⟨"b2", "r1", 2, "d2", "W2", 5, "sig2", 3, none, "pending"⟩], [], []⟩

/-- A transaction crediting the deposit address DEP with 5,000,000 lamports
in which no other account shows a balance decrease. -/
def txC10 : ParsedTx := ⟨false, [⟨"DEP", 0, 5000000⟩], ["sigX"]⟩

/-- A waiting deposit address watching DEP for race r1. -/
def depC10 : DepositAddr := ⟨"d1", "DEP", "K1", "r1", 1, none, "waiting", 0, none, 1000⟩

/-- Monitor state for the null-sender scenario: open race, one waiting
deposit, nothing processed yet. -/
def stC10 : MonState := ⟨⟨[⟨"r1", "open", none, 2, none⟩], [depC10], [], [], []⟩, [], []⟩

/-- The production limits: min 0.01 SOL, max 20 SOL. -/
def cfgStd : MonitorConfig := ⟨1/100, 20⟩

/-- An expired waiting deposit address (expires_at 100). -/
def depC7 : DepositAddr := ⟨"d7", "A7", "K7", "r1", 1, some "U7", "waiting", 0, none, 100⟩

/-- Monitor state holding the expired deposit and its open race. -/
def stC7 : MonState := ⟨⟨[⟨"r1", "open", none, 2, none⟩], [depC7], [], [], []⟩, [], []⟩

/-- Ledger state where the expired address A7 holds a late 0.5 SOL transfer
whose transaction is visible in its history. -/
def worldC7 : World :=
  ⟨[("A7", 1/2)], [("A7", ["s7"])],
   [("s7", ⟨false, [⟨"U7", 600000000, 100000000⟩, ⟨"A7", 0, 500000000⟩], ["s7"]⟩)]⟩

/-- The same ledger with the address A7 empty. -/
def worldC7zero : World :=
  ⟨[], [("A7", ["s7"])],
   [("s7", ⟨false, [⟨"U7", 600000000, 100000000⟩, ⟨"A7", 0, 500000000⟩], ["s7"]⟩)]⟩

/-- Pools 10 SOL on horse 1 and 5 SOL on horse 2 for race r1. -/
def dbC8a : DB :=
  ⟨[⟨"r1", "open", none, 2, none⟩], [],
   [⟨"b1", "r1", 1, "d1", "W1", 10, "sig1", 3/2, none, "pending"⟩,
    ⟨"b2", "r1", 2, "d2", "W2", 5, "sig2", 3, none, "pending"⟩], [], []⟩

/-- An extra 1 SOL bet on the losing-side horse 2. -/
def betC8 : Bet := ⟨"b3", "r1", 2, "d3", "W3", 1, "sig3", 1, none, "pending"⟩

/-- dbC8a with the losing-side pool strictly increased by betC8. -/
def dbC8b : DB := { dbC8a with bets := betC8 :: dbC8a.bets }

/-- A race that has already been settled (status completed, winner 1),
with its winning bet's winnings written and its payout row created. -/
def dbC1 : DB :=
  ⟨[⟨"r1", "completed", some 1, 2, some 50⟩], [],
   [⟨"b1", "r1", 1, "d1", "W1", 10, "sig1", 3/2, some (19/4), "pending"⟩,
    ⟨"b2", "r1", 2, "d2", "W2", 5, "sig2", 3, some 0, "pending"⟩], [],
   [⟨"payout0", "b1", "W1", 59/4, "completed"⟩]⟩

/-- A rejected deposit with one pending refund of its 0.001 SOL transfer;
the address A1 holds 1,000,000 lamports. -/
def wC6 : FlowState :=
  ⟨⟨[], [⟨"dep1", "A1", "K", "r1", 1, some "U1", "rejected_too_small", 1/1000, some "s", 100⟩],
    [], [⟨"refund1", "dep1", "U1", 1/1000, "Amount below minimum bet", "pending", "s"⟩], []⟩,
   [("A1", 1000000)], [], false⟩

/-- A confirmed deposit whose address A2 holds 2,000,000 lamports, ready for
collection. -/
def wC6c : FlowState :=
  ⟨⟨[], [⟨"dep2", "A2", "K", "r1", 1, some "U1", "confirmed", 1, some "s2", 100⟩],
    [], [], []⟩,
   [("A2", 2000000)], [], false⟩

/-- A ledger for the dedup witness: address A holds 0.1 SOL sent by S in
transaction t1, and the history reports t1 twice. -/
def worldC3 : World :=
  ⟨[("A", 1/10)], [("A", ["t1", "t1"])],
   [("t1", ⟨false, [⟨"S", 200000000, 99990000⟩, ⟨"A", 0, 100000000⟩], ["t1"]⟩)]⟩

/-- Monitor state for the dedup witness: one waiting deposit on A. -/
def stC3 : MonState :=
  ⟨⟨[⟨"r1", "open", none, 2, none⟩],
    [⟨"dA", "A", "KA", "r1", 1, some "S", "waiting", 0, none, 1000⟩], [], [], []⟩, [], []⟩

/-- Two identical monitor cycles observing worldC3 at time 10. -/
def cyclesC3 : List (World × Nat) := [(worldC3, 10), (worldC3, 10)]

/-- Monitor state for the state-machine witnesses: an open race and one
waiting deposit on address AW. -/
def stC4 : MonState :=
  ⟨⟨[⟨"r1", "open", none, 2, none⟩],
    [⟨"dW", "AW", "KW", "r1", 1, none, "waiting", 0, none, 1000⟩], [], [], []⟩, [], []⟩

/-- The waiting deposit row of stC4. -/
def depC4 : DepositAddr := ⟨"dW", "AW", "KW", "r1", 1, none, "waiting", 0, none, 1000⟩

/-! ## Claim theorems -/

/-- Claim C2 (confirmed): Scenario A with houseEdge 5 percent and bets of
10 SOL on outcome 1 and 5 SOL on outcome 2, outcome 1 winning:
calculateWinnings computes totalPool 15, winningPool 10, losingPool 5,
distributable 4.75; the single outcome-1 bettor gets winnings 4.75 and
totalPayout 14.75, recorded in exactly one new payout row for 14.75, and the
winnings column of both bets is written. -/
theorem claim_C2_scenarioA :
    (calculateWinnings dbC2 (5/100) "r1" 1).2.totalPool = 15 ∧
    (calculateWinnings dbC2 (5/100) "r1" 1).2.winningPool = 10 ∧
    (calculateWinnings dbC2 (5/100) "r1" 1).2.losingPool = 5 ∧
    (calculateWinnings dbC2 (5/100) "r1" 1).2.distributed = 19/4 ∧
    (calculateWinnings dbC2 (5/100) "r1" 1).2.winners = [⟨"b1", "W1", 10, 19/4, 59/4⟩] ∧
    (calculateWinnings dbC2 (5/100) "r1" 1).1.payouts = [⟨"payout0", "b1", "W1", 59/4, "pending"⟩] ∧
    ((calculateWinnings dbC2 (5/100) "r1" 1).1.bets.map (fun b => b.winnings)) =
      [some (19/4), some 0] := by
  refine ⟨?_, ?_, ?_, ?_, ?_, ?_, ?_⟩ <;>
    norm_num +decide [calculateWinnings, dbC2, betsForRace, totalPoolOf, poolAmount, settleStep,
      updateBetWinnings, createPayout, freshPayoutId]

/-- Claim C9 (counterexample): the encryption secret is configured (the
11-character string shortsecret), encryptPrivateKey fails on it, and yet
createDepositAddress persists the plaintext private key PLAINKEY in the
deposit_addresses row - plaintext storage is not limited to the
encryption-disabled configuration. -/
theorem claim_C9_counterexample :
    encryptPrivateKey "PLAINKEY" "shortsecret" (fun s => String.append "enc" s) =
      Except.error "ENCRYPTION_SECRET must be at least 32 characters" ∧
    (createDepositAddress ⟨[], [], [], [], []⟩ (some "shortsecret")
        (fun s => String.append "enc" s) "d1" "addr1" "PLAINKEY" "r1" 1 1000 none).deposits =
      [⟨"d1", "addr1", "PLAINKEY", "r1", 1, none, "waiting", 0, none, 1000⟩] := by
  refine ⟨?_, ?_⟩ <;>
    simp [encryptPrivateKey, createDepositAddress, storedPrivateKey,
      show "shortsecret".length < 32 by decide]

/-- Claim C9 (amended): when a secret is configured, the stored key is the
ciphertext exactly when the secret is nonempty and at least 32 characters;
otherwise (no secret, empty secret, or a short secret on which
encryptPrivateKey throws) the plaintext is persisted after the caught
encryption error, and the short or missing secret is precisely the
condition surfaced loudly at process start. -/
theorem claim_C9_plaintext_fallback (s : String) (cipher : String → String) (pk : String) :
    storedPrivateKey (some s) cipher pk =
      (if s = "" ∨ s.length < 32 then pk else cipher pk) ∧
    storedPrivateKey none cipher pk = pk ∧
    encryptionWarningAtStart (some s) = decide (s.length < 32) ∧
    encryptionWarningAtStart none = true := by
  refine ⟨?_, rfl, rfl, rfl⟩
  by_cases h1 : s = ""
  · simp [storedPrivateKey, h1]
  · by_cases h2 : s.length < 32 <;>
      simp [storedPrivateKey, encryptPrivateKey, h1, h2]

/-- Claim C10 (confirmed): for the transaction txC10, in which the watched
address DEP gains 5,000,000 lamports and no other account in the account
list shows a balance decrease, parseSOLTransfer returns a transfer whose
fromAddress is null, and processDeposit then queues a refund carrying the
null user_wallet (the in-memory refundQueue entry built by queueRefund);
the refunds and bets table inserts themselves are rejected by the NOT NULL
user_wallet constraint, and any later outbound payment to a null wallet
fails address validation (new PublicKey throws). -/
theorem claim_C10_null_sender :
    parseSOLTransfer (some txC10) "DEP" = some ⟨none, 1/200, "sigX"⟩ ∧
    (processDeposit cfgStd stC10 depC10 ⟨none, 1/200, "sigX"⟩).1.refundQueue =
      [⟨"d1", "DEP", none, 1/200, "Amount below minimum bet"⟩] ∧
    (processDeposit cfgStd stC10 depC10 ⟨none, 1/200, "sigX"⟩).1.db.refunds = [] ∧
    (processDeposit cfgStd stC10 depC10 ⟨none, 1/200, "sigX"⟩).1.db.bets = [] ∧
    isValidWallet none = false := by
  refine ⟨?_, ?_, ?_, ?_, rfl⟩ <;>
    norm_num +decide [parseSOLTransfer, txC10, findSender, lamportsPerSol, processDeposit, cfgStd,
      stC10, depC10, queueRefund, insertRefund, freshRefundId, updateDepositStatus]

/-- Claim C7 (code bug): the expired waiting address A7 holds a late 0.5 SOL
transfer, visible in its history; every monitor cycle leaves the state
completely unchanged - the address stays waiting forever, the late transfer
is never classified and no bet or refund is ever created, although the
sweep's own comment says a late deposit is still processed.  With an empty
balance the same sweep does mark the address expired. -/
theorem claim_C7_late_deposit_stranded :
    (∀ n : Nat, runCycles cfgStd (List.replicate n (worldC7, 200)) stC7 = stC7) ∧
    stC7.db.bets = [] ∧ stC7.db.refunds = [] ∧
    depC7.status = "waiting" ∧ depC7.expiresAt ≤ 200 ∧
    (0 : Rat) < worldC7.balance "A7" ∧
    (getDepositAddress (runCycle cfgStd worldC7zero 200 stC7).db "d7").map (fun d => d.status) =
      some "expired" := by
  have hfix : runCycle cfgStd worldC7 200 stC7 = stC7 := by
    norm_num +decide [runCycle, getWaitingDeposits, getExpiredDeposits, cleanupExpiredDeposits,
      checkSingleDeposit, World.balance, stC7, depC7, worldC7, cfgStd, updateDepositStatus]
  refine ⟨?_, rfl, rfl, rfl, by norm_num +decide [depC7],
    by norm_num +decide [worldC7, World.balance], ?_⟩
  · intro n
    induction n with
    | zero => rfl
    | succ k ih => simpa [List.replicate_succ, runCycles, hfix] using ih
  · norm_num +decide [runCycle, getWaitingDeposits, getExpiredDeposits, cleanupExpiredDeposits,
      World.balance, stC7, depC7, worldC7zero, cfgStd, updateDepositStatus, getDepositAddress]

/-- Claim C8 (counterexample): with pools of 10 SOL on horse 1 and 5 SOL on
horse 2, strictly increasing the losing-side pool (an extra 1 SOL bet on
horse 2) does not decrease the odds-at-placement offered to the next horse-1
bettor: the odds move from 16/11 up to 17/11 while the horse-1 pool is
unchanged. -/
theorem claim_C8_counterexample :
    ¬ (nextBettorOdds dbC8b "r1" 1 1 < nextBettorOdds dbC8a "r1" 1 1) ∧
    nextBettorOdds dbC8a "r1" 1 1 < nextBettorOdds dbC8b "r1" 1 1 ∧
    poolAmount dbC8a "r1" 2 < poolAmount dbC8b "r1" 2 ∧
    poolAmount dbC8a "r1" 1 = poolAmount dbC8b "r1" 1 := by
  norm_num +decide [nextBettorOdds, totalPoolOf, poolAmount, betsForRace, dbC8a, dbC8b, betC8]

/-- Claim C1 (counterexample): race r1 is already completed (settled, with
an existing completed payout row), yet the race-end flow is not rejected:
it returns no error, appends a second payout row for the same winning bet,
and rewrites the race row's completed_at. -/
theorem claim_C1_counterexample :
    (getRace dbC1 "r1").map (fun r => r.status) = some "completed" ∧
    (adminRaceEnd dbC1 (1/20) 99 "r1" 1).error = none ∧
    (adminRaceEnd dbC1 (1/20) 99 "r1" 1).db.payouts =
      [⟨"payout0", "b1", "W1", 59/4, "completed"⟩, ⟨"payout1", "b1", "W1", 59/4, "pending"⟩] ∧
    (getRace (adminRaceEnd dbC1 (1/20) 99 "r1" 1).db "r1").map (fun r => r.completedAt) =
      some (some 99) := by
  norm_num +decide [adminRaceEnd, getRace, dbC1, calculateWinnings, settleStep, betsForRace,
    totalPoolOf, poolAmount, updateBetWinnings, createPayout, freshPayoutId, setRaceWinner]

/-- Claim C6 (counterexample): two interleaved invocations of
processAllRefunds over one pending refund: after the first invocation has
started and is still in flight (not done), the second invocation fetches the
same pending snapshot and performs the outbound refund transfer itself (the
sent entry is tagged with invocation 2) - the flow does not refuse
concurrent re-entrancy. -/
theorem claim_C6_counterexample :
    (runTwo refundStep wC6 FlowPC.start FlowPC.start [true, false, false]).1.sent =
      [(2, "refund1", 995000)] ∧
    (runTwo refundStep wC6 FlowPC.start FlowPC.start [true]).2.1 ≠ FlowPC.done := by
  refine ⟨?_, ?_⟩ <;>
    norm_num +decide [runTwo, refundStep, refundProcessOne, pendingRefunds, getDepositAddress,
      setRefundStatus, isValidWallet, wC6, refundFee, FlowState.balanceOf, FlowState.setBalance]

/-- Claim C6 (amended): only processAllPayouts refuses concurrent
re-entrancy - an invocation entering while the isProcessing flag is set
returns immediately with no transfer and no mutation; processAllRefunds and
collectAllDeposits have no in-flight guard, and a second invocation
interleaved with an in-flight first one proceeds to perform outbound
transfers of its own. -/
theorem claim_C6_only_payouts_guarded :
    (∀ (w : FlowState) (mw : Bool),
        payoutStep mw 2 { w with payoutsInFlight := true } FlowPC.start =
          ({ w with payoutsInFlight := true }, FlowPC.done)) ∧
    ((runTwo refundStep wC6 FlowPC.start FlowPC.start [true, false, false]).1.sent.filter
        (fun e => e.1 == 2) ≠ []) ∧
    ((runTwo (collectStep (1/20) none) wC6c FlowPC.start FlowPC.start [true, false, false]).1.sent.filter
        (fun e => e.1 == 2) ≠ []) := by
  refine ⟨?_, ?_, ?_⟩
  · intro w mw
    simp [payoutStep]
  · norm_num +decide [runTwo, refundStep, refundProcessOne, pendingRefunds, getDepositAddress,
      setRefundStatus, isValidWallet, wC6, refundFee, FlowState.balanceOf, FlowState.setBalance]
  · norm_num +decide [runTwo, collectStep, collectProcessOne, confirmedDeposits, wC6c, collectFee,
      FlowState.balanceOf, FlowState.setBalance]

/-! ## Supporting lemmas -/

/-- find? commutes with a conditional in-place update that preserves the
search predicate (the shape of every UPDATE ... WHERE id = ? in the model). -/
theorem find?_map_update {α : Type} (p : α → Bool) (udf : α → α)
    (hp : ∀ x, p (udf x) = p x) (l : List α) (d : α)
    (hd : l.find? p = some d) :
    (l.map (fun x => if p x then udf x else x)).find? p = some (udf d) := by
  induction l with
  | nil => simp at hd
  | cons x rest ih =>
    rw [List.map_cons]
    by_cases h : p x
    · rw [List.find?_cons_of_pos _ h] at hd
      cases hd
      rw [if_pos h, List.find?_cons_of_pos]
      rw [hp]
      exact h
    · rw [List.find?_cons_of_neg _ h] at hd
      rw [if_neg h, List.find?_cons_of_neg]
      · exact ih hd
      · exact h

/-- The settlement fold never touches the races table. -/
theorem settleFold_races (wh : Int) (wp dp : Rat) (l : List Bet) (acc : DB × List WinnerEntry) :
    (l.foldl (settleStep wh wp dp) acc).1.races = acc.1.races := by
  induction l generalizing acc with
  | nil => rfl
  | cons b rest ih =>
    rw [List.foldl_cons, ih]
    unfold settleStep
    split <;> rfl

/-- The settlement fold appends exactly one payout row per winning bet. -/
theorem settleFold_payouts_len (wh : Int) (wp dp : Rat) (l : List Bet) (acc : DB × List WinnerEntry) :
    (l.foldl (settleStep wh wp dp) acc).1.payouts.length =
      acc.1.payouts.length + (l.filter (fun b => b.horseNumber == wh)).length := by
  induction l generalizing acc with
  | nil => rfl
  | cons b rest ih =>
    rw [List.foldl_cons, ih]
    unfold settleStep
    by_cases h : (b.horseNumber == wh)
    · simp [h, createPayout, updateBetWinnings]
      omega
    · simp [h, updateBetWinnings]

/-- Reading back a deposit row after updateDepositStatus on its id. -/
theorem getDeposit_after_update (db : DB) (d : DepositAddr) (status : String)
    (amt : Option Rat) (sig uw : Option String)
    (hd : db.deposits.find? (fun x => x.id == d.id) = some d) :
    (updateDepositStatus db d.id status amt sig uw).deposits.find? (fun x => x.id == d.id) =
      some { d with
        status := status
        amountReceived := amt.getD d.amountReceived
        txSignature := (match sig with | some s => some s | none => d.txSignature)
        userWallet := (match uw with | some u => some u | none => d.userWallet) } := by
  unfold updateDepositStatus
  dsimp only
  exact find?_map_update (fun x => x.id == d.id)
    (fun x => { x with
      status := status
      amountReceived := amt.getD x.amountReceived
      txSignature := (match sig with | some s => some s | none => x.txSignature)
      userWallet := (match uw with | some u => some u | none => x.userWallet) })
    (fun x => rfl) db.deposits d hd

/-- A successfully classified transfer carries the first signature of the
transaction it was parsed from. -/
theorem parseSOLTransfer_signature (txq : Option ParsedTx) (addr : String) (t : Transfer)
    (h : parseSOLTransfer txq addr = some t) :
    ∃ tx, txq = some tx ∧ t.signature = tx.sigs.headD "" := by
  unfold parseSOLTransfer at h
  cases txq with
  | none => simp at h
  | some tx =>
    refine ⟨tx, rfl, ?_⟩
    dsimp only at h
    by_cases hf : tx.failed
    · simp [hf] at h
    · simp only [hf, Bool.false_eq_true, if_false] at h
      cases hidx : tx.accounts.findIdx? (fun a => a.pubkey == addr) with
      | none => rw [hidx] at h; simp at h
      | some toIndex =>
        rw [hidx] at h
        dsimp only at h
        by_cases hamt : (((tx.accounts.get? toIndex).map (fun a => a.post - a.pre)).getD 0 : Int) ≤ 0
        · rw [if_pos hamt] at h
          simp at h
        · rw [if_neg hamt] at h
          have := Option.some.inj h
          rw [← this]

/-- In a well-formed ledger, the transfer classified from the transaction
fetched for a signature carries exactly that signature. -/
theorem parse_signature_eq (w : World) (hwf : w.Wf) (sig addr : String) (t : Transfer)
    (h : parseSOLTransfer (w.txOf sig) addr = some t) : t.signature = sig := by
  obtain ⟨tx, htx, hsig⟩ := parseSOLTransfer_signature _ _ _ h
  unfold World.txOf at htx
  cases hfind : w.txs.find? (fun p => p.1 == sig) with
  | none => rw [hfind] at htx; simp at htx
  | some p =>
    rw [hfind] at htx
    simp only [Option.map_some'] at htx
    have hmem : p ∈ w.txs := List.mem_of_find?_eq_some hfind
    have hp1 : p.1 = sig := by simpa using List.find?_some hfind
    have hhead : p.2.sigs.headD "" = p.1 := hwf p hmem
    have hp2 : p.2 = tx := Option.some.inj htx
    rw [hsig, ← hp2, hhead, hp1]

/-- processDeposit never touches the processed-signature set. -/
theorem processDeposit_sigs (cfg : MonitorConfig) (st : MonState) (d : DepositAddr)
    (t : Transfer) :
    (processDeposit cfg st d t).1.processedSignatures = st.processedSignatures := by
  unfold processDeposit
  by_cases h1 : t.amount < cfg.minBet
  · rw [if_pos h1]
    unfold queueRefund insertRefund
    cases t.fromAddress <;> rfl
  · rw [if_neg h1]
    by_cases h2 : cfg.maxBet < t.amount
    · rw [if_pos h2]
      unfold queueRefund insertRefund
      cases t.fromAddress <;> rfl
    · rw [if_neg h2]
      by_cases h3 : raceIsOpen st.db d.raceId = false
      · rw [if_pos h3]
        unfold queueRefund insertRefund
        cases t.fromAddress <;> rfl
      · rw [if_neg h3]
        unfold createBet
        cases t.fromAddress <;> rfl

/-- Every processDeposit call consumes at most one record, attributed to the
transfer's signature, and only when it returns without an insert error. -/
theorem processDeposit_consumed (cfg : MonitorConfig) (st : MonState) (d : DepositAddr)
    (t : Transfer) (s : String) :
    consumedCount (processDeposit cfg st d t).1.db s =
      consumedCount st.db s +
        (if (processDeposit cfg st d t).2 = true ∧ t.signature = s then 1 else 0) := by
  unfold processDeposit
  by_cases h1 : t.amount < cfg.minBet
  · rw [if_pos h1]
    unfold queueRefund insertRefund
    cases t.fromAddress <;> by_cases hts : t.signature = s <;>
      simp [consumedCount, betsWithSig, refundsWithSig, updateDepositStatus,
        List.filter_append, hts] <;> omega
  · rw [if_neg h1]
    by_cases h2 : cfg.maxBet < t.amount
    · rw [if_pos h2]
      unfold queueRefund insertRefund
      cases t.fromAddress <;> by_cases hts : t.signature = s <;>
        simp [consumedCount, betsWithSig, refundsWithSig, updateDepositStatus,
          List.filter_append, hts] <;> omega
    · rw [if_neg h2]
      by_cases h3 : raceIsOpen st.db d.raceId = false
      · rw [if_pos h3]
        unfold queueRefund insertRefund
        cases t.fromAddress <;> by_cases hts : t.signature = s <;>
          simp [consumedCount, betsWithSig, refundsWithSig, updateDepositStatus,
            List.filter_append, hts] <;> omega
      · rw [if_neg h3]
        unfold createBet
        cases t.fromAddress <;> by_cases hts : t.signature = s <;>
          simp [consumedCount, betsWithSig, refundsWithSig, updateDepositStatus,
            List.filter_append, hts] <;> omega

/-- Claim C1 (amended): the race-end flow validates only that race_id and
winner are present, that the race exists, and that the winner is within
1..horses.length; the race's current status is never consulted, so the flow
also runs for an already-completed race: it reports success, appends one new
payout row per winning bet on top of the existing ones, and rewrites the
race row (status completed again, completed_at refreshed). -/
theorem claim_C1_resettle_unguarded (db : DB) (he : Rat) (now : Nat) (raceId : String)
    (winner : Int) (race : Race) (hr : getRace db raceId = some race) (hid : raceId ≠ "")
    (hw0 : winner ≠ 0) (h1 : 1 ≤ winner) (h2 : winner ≤ (race.horseCount : Int)) :
    (adminRaceEnd db he now raceId winner).error = none ∧
    (adminRaceEnd db he now raceId winner).db.payouts.length =
      db.payouts.length + ((betsForRace db raceId).filter (fun b => b.horseNumber == winner)).length ∧
    (getRace (adminRaceEnd db he now raceId winner).db raceId).map (fun r => r.status) =
      some "completed" := by
  unfold adminRaceEnd
  rw [if_neg (by push_neg; exact ⟨hid, hw0⟩), hr]
  dsimp only
  rw [if_neg (by push_neg; omega)]
  refine ⟨rfl, ?_, ?_⟩
  · show (setRaceWinner (calculateWinnings db he raceId winner).1 raceId winner now).payouts.length = _
    have hpay : (setRaceWinner (calculateWinnings db he raceId winner).1 raceId winner now).payouts =
        (calculateWinnings db he raceId winner).1.payouts := rfl
    rw [hpay]
    unfold calculateWinnings
    exact settleFold_payouts_len _ _ _ _ _
  · show (getRace (setRaceWinner (calculateWinnings db he raceId winner).1 raceId winner now) raceId).map
        (fun r => r.status) = some "completed"
    have hraces : (calculateWinnings db he raceId winner).1.races = db.races := by
      unfold calculateWinnings
      exact settleFold_races _ _ _ _ _
    have hr2 : db.races.find? (fun r => r.id == raceId) = some race := hr
    unfold getRace setRaceWinner
    rw [hraces]
    rw [find?_map_update (fun r => r.id == raceId)
      (fun r => { r with winner := some winner, status := "completed", completedAt := some now })
      (fun x => rfl) db.races race hr2]
    rfl

/-- Claim C1 (witness): the amended behavior evaluated on the
already-completed race dbC1. -/
theorem claim_C1_witness :
    (adminRaceEnd dbC1 (1/20) 99 "r1" 1).error = none ∧
    (adminRaceEnd dbC1 (1/20) 99 "r1" 1).db.payouts.length =
      dbC1.payouts.length + ((betsForRace dbC1 "r1").filter (fun b => b.horseNumber == 1)).length ∧
    (getRace (adminRaceEnd dbC1 (1/20) 99 "r1" 1).db "r1").map (fun r => r.status) =
      some "completed" :=
  claim_C1_resettle_unguarded dbC1 (1/20) 99 "r1" 1 ⟨"r1", "completed", some 1, 2, some 50⟩
    (by decide) (by decide) (by decide) (by decide) (by decide)

/-- Claim C4 (confirmed): for a classified transfer with a known sender
delivered to a waiting deposit address, processDeposit applies the rules in
the precedence order minimum, maximum, race-open: below minimum the address
is marked rejected_too_small with exactly one queued refund row for the
transferred amount and no bet; otherwise above maximum it is marked
rejected_over_max with a refund and no bet; otherwise with the owning race
not open it is marked rejected_race_closed with a refund and no bet;
otherwise the address is marked confirmed and exactly one bet is created
with no refund. -/
theorem claim_C4_state_machine (cfg : MonitorConfig) (st : MonState) (d : DepositAddr)
    (t : Transfer) (sender : String) (hs : t.fromAddress = some sender)
    (hd : getDepositAddress st.db d.id = some d) :
    (t.amount < cfg.minBet →
      (getDepositAddress (processDeposit cfg st d t).1.db d.id).map (fun x => x.status) =
        some "rejected_too_small" ∧
      (processDeposit cfg st d t).1.db.refunds = st.db.refunds ++
        [⟨freshRefundId st.db, d.id, sender, t.amount, "Amount below minimum bet", "pending",
          t.signature⟩] ∧
      (processDeposit cfg st d t).1.db.bets = st.db.bets) ∧
    (¬ t.amount < cfg.minBet → cfg.maxBet < t.amount →
      (getDepositAddress (processDeposit cfg st d t).1.db d.id).map (fun x => x.status) =
        some "rejected_over_max" ∧
      (processDeposit cfg st d t).1.db.refunds = st.db.refunds ++
        [⟨freshRefundId st.db, d.id, sender, t.amount, "Amount exceeds maximum bet", "pending",
          t.signature⟩] ∧
      (processDeposit cfg st d t).1.db.bets = st.db.bets) ∧
    (¬ t.amount < cfg.minBet → ¬ cfg.maxBet < t.amount → raceIsOpen st.db d.raceId = false →
      (getDepositAddress (processDeposit cfg st d t).1.db d.id).map (fun x => x.status) =
        some "rejected_race_closed" ∧
      (processDeposit cfg st d t).1.db.refunds = st.db.refunds ++
        [⟨freshRefundId st.db, d.id, sender, t.amount, "Race is not open for betting", "pending",
          t.signature⟩] ∧
      (processDeposit cfg st d t).1.db.bets = st.db.bets) ∧
    (¬ t.amount < cfg.minBet → ¬ cfg.maxBet < t.amount → raceIsOpen st.db d.raceId = true →
      (getDepositAddress (processDeposit cfg st d t).1.db d.id).map (fun x => x.status) =
        some "confirmed" ∧
      (processDeposit cfg st d t).1.db.bets = st.db.bets ++
        [⟨freshBetId st.db, d.raceId, d.horseNumber, d.id, sender, t.amount, t.signature,
          nextBettorOdds st.db d.raceId d.horseNumber t.amount, none, "pending"⟩] ∧
      (processDeposit cfg st d t).1.db.refunds = st.db.refunds) := by
  have hd2 : st.db.deposits.find? (fun x => x.id == d.id) = some d := hd
  refine ⟨?_, ?_, ?_, ?_⟩
  · intro h1
    simp only [processDeposit, if_pos h1, queueRefund, insertRefund, hs]
    refine ⟨?_, rfl, rfl⟩
    unfold getDepositAddress
    dsimp only
    rw [getDeposit_after_update st.db d "rejected_too_small" (some t.amount) (some t.signature)
      (some sender) hd2]
    rfl
  · intro h1 h2
    simp only [processDeposit, if_neg h1, if_pos h2, queueRefund, insertRefund, hs]
    refine ⟨?_, rfl, rfl⟩
    unfold getDepositAddress
    dsimp only
    rw [getDeposit_after_update st.db d "rejected_over_max" (some t.amount) (some t.signature)
      (some sender) hd2]
    rfl
  · intro h1 h2 h3
    simp only [processDeposit, if_neg h1, if_neg h2, if_pos h3, queueRefund, insertRefund, hs]
    refine ⟨?_, rfl, rfl⟩
    unfold getDepositAddress
    dsimp only
    rw [getDeposit_after_update st.db d "rejected_race_closed" (some t.amount) (some t.signature)
      (some sender) hd2]
    rfl
  · intro h1 h2 h3
    have h3f : ¬ raceIsOpen st.db d.raceId = false := by simp [h3]
    simp only [processDeposit, if_neg h1, if_neg h2, if_neg h3f, createBet, hs]
    refine ⟨?_, rfl, rfl⟩
    unfold getDepositAddress
    dsimp only
    rw [getDeposit_after_update st.db d "confirmed" (some t.amount) (some t.signature)
      (some sender) hd2]
    rfl

/-- Claim C4 (witness): a 0.005 SOL transfer (below the 0.01 minimum) to the
waiting deposit dW is rejected too small, queues exactly one refund row for
0.005, and creates no bet. -/
theorem claim_C4_witness :
    (getDepositAddress (processDeposit cfgStd stC4 depC4 ⟨some "S", 1/200, "sg"⟩).1.db
        depC4.id).map (fun x => x.status) = some "rejected_too_small" ∧
    (processDeposit cfgStd stC4 depC4 ⟨some "S", 1/200, "sg"⟩).1.db.refunds =
      stC4.db.refunds ++ [⟨freshRefundId stC4.db, depC4.id, "S", 1/200,
        "Amount below minimum bet", "pending", "sg"⟩] ∧
    (processDeposit cfgStd stC4 depC4 ⟨some "S", 1/200, "sg"⟩).1.db.bets = stC4.db.bets :=
  (claim_C4_state_machine cfgStd stC4 depC4 ⟨some "S", 1/200, "sg"⟩ "S" rfl (by decide)).1
    (by norm_num [cfgStd])

/-- Claim C5 (confirmed): every confirmed deposit creates exactly one bet
whose stored odds-at-placement equal (total pool across all outcomes at the
moment of confirmation + this amount) divided by (the chosen outcome's pool
at that moment + this amount). -/
theorem claim_C5_odds_at_placement (cfg : MonitorConfig) (st : MonState) (d : DepositAddr)
    (t : Transfer) (sender : String) (hs : t.fromAddress = some sender)
    (h1 : ¬ t.amount < cfg.minBet) (h2 : ¬ cfg.maxBet < t.amount)
    (h3 : raceIsOpen st.db d.raceId = true) :
    (processDeposit cfg st d t).1.db.bets = st.db.bets ++
      [⟨freshBetId st.db, d.raceId, d.horseNumber, d.id, sender, t.amount, t.signature,
        (totalPoolOf st.db d.raceId + t.amount) /
          (poolAmount st.db d.raceId d.horseNumber + t.amount), none, "pending"⟩] := by
  have h3f : ¬ raceIsOpen st.db d.raceId = false := by simp [h3]
  simp only [processDeposit, if_neg h1, if_neg h2, if_neg h3f, createBet, hs]
  rfl

/-- Claim C5 (witness): a 1 SOL transfer into an empty race confirms with
odds (0 + 1) / (0 + 1). -/
theorem claim_C5_witness :
    (processDeposit cfgStd stC4 depC4 ⟨some "S", 1, "sg5"⟩).1.db.bets = stC4.db.bets ++
      [⟨freshBetId stC4.db, depC4.raceId, depC4.horseNumber, depC4.id, "S", 1, "sg5",
        (totalPoolOf stC4.db depC4.raceId + 1) /
          (poolAmount stC4.db depC4.raceId depC4.horseNumber + 1), none, "pending"⟩] :=
  claim_C5_odds_at_placement cfgStd stC4 depC4 ⟨some "S", 1, "sg5"⟩ "S" rfl
    (by norm_num [cfgStd]) (by norm_num [cfgStd]) (by decide)

/-- Claim C8 (amended): with all else held constant, strictly increasing a
losing-side pool (one extra positive bet on an outcome other than the
winning-side one) strictly increases, not decreases, the odds-at-placement
the formula offers to the next winning-side bettor. -/
theorem claim_C8_odds_increase (db : DB) (raceId : String) (hWin : Int) (b : Bet)
    (hb1 : b.raceId = raceId) (hb2 : ¬ b.horseNumber = hWin) (hb3 : 0 < b.amount)
    (amt : Rat) (hp : 0 < poolAmount db raceId hWin + amt) :
    nextBettorOdds db raceId hWin amt <
      nextBettorOdds { db with bets := b :: db.bets } raceId hWin amt := by
  have htot : totalPoolOf { db with bets := b :: db.bets } raceId =
      b.amount + totalPoolOf db raceId := by
    unfold totalPoolOf betsForRace
    simp [List.filter_cons, hb1]
  have hpool : poolAmount { db with bets := b :: db.bets } raceId hWin =
      poolAmount db raceId hWin := by
    unfold poolAmount betsForRace
    simp [List.filter_cons, hb1, hb2]
  unfold nextBettorOdds
  rw [htot, hpool, div_lt_div_iff_of_pos_right hp]
  linarith

/-- Claim C8 (witness): adding the 1 SOL losing-side bet betC8 to the
10-and-5 pools strictly raises the next horse-1 bettor's odds. -/
theorem claim_C8_witness :
    nextBettorOdds dbC8a "r1" 1 1 <
      nextBettorOdds { dbC8a with bets := betC8 :: dbC8a.bets } "r1" 1 1 :=
  claim_C8_odds_increase dbC8a "r1" 1 betC8 rfl (by decide) (by norm_num [betC8]) 1
    (by norm_num [poolAmount, betsForRace, dbC8a])

/-- One monitored transaction-loop step preserves the at-most-once
invariant: already-processed signatures are skipped, and a newly processed
one is recorded before any further record for it can be created. -/
theorem checkTxs_inv (cfg : MonitorConfig) (w : World) (hwf : w.Wf) (d : DepositAddr)
    (sigs : List String) (st : MonState) (s : String) (h : SigInv st s) :
    SigInv (checkTxs cfg w d st sigs) s := by
  induction sigs generalizing st with
  | nil => exact h
  | cons sig rest ih =>
    rw [checkTxs]
    by_cases hmem : sig ∈ st.processedSignatures
    · rw [if_pos hmem]
      exact ih st h
    · rw [if_neg hmem]
      cases hparse : parseSOLTransfer (w.txOf sig) d.address with
      | none => exact ih st h
      | some t =>
        dsimp only
        by_cases hamt : 0 < t.amount
        · rw [if_pos hamt]
          have hsig : t.signature = sig := parse_signature_eq w hwf sig d.address t hparse
          have hsigs := processDeposit_sigs cfg st d t
          have hcnt := processDeposit_consumed cfg st d t s
          by_cases hok : (processDeposit cfg st d t).2 = true
          · rw [if_pos hok]
            by_cases hss : sig = s
            · have hc0 : consumedCount st.db s = 0 := by
                by_contra hc
                exact hmem (hss ▸ h.2 (by omega))
              constructor
              · show consumedCount (processDeposit cfg st d t).1.db s ≤ 1
                rw [hcnt, hc0]
                split <;> omega
              · intro _
                show s ∈ sig :: (processDeposit cfg st d t).1.processedSignatures
                rw [hss]
                exact List.mem_cons_self _ _
            · have hcond : ¬ ((processDeposit cfg st d t).2 = true ∧ t.signature = s) := by
                rintro ⟨_, hts⟩
                exact hss (hsig ▸ hts.symm).symm
              constructor
              · show consumedCount (processDeposit cfg st d t).1.db s ≤ 1
                rw [hcnt, if_neg hcond]
                have hle := h.1
                omega
              · intro hge
                show s ∈ sig :: (processDeposit cfg st d t).1.processedSignatures
                rw [hcnt, if_neg hcond] at hge
                rw [hsigs]
                exact List.mem_cons_of_mem _ (h.2 (by omega))
          · rw [if_neg hok]
            have hcond : ¬ ((processDeposit cfg st d t).2 = true ∧ t.signature = s) := by
              rintro ⟨hh, _⟩
              exact hok hh
            constructor
            · show consumedCount (processDeposit cfg st d t).1.db s ≤ 1
              rw [hcnt, if_neg hcond]
              have hle := h.1
              omega
            · intro hge
              rw [hcnt, if_neg hcond] at hge
              rw [hsigs]
              exact h.2 (by omega)
        · rw [if_neg hamt]
          exact ih st h

/-- checkSingleDeposit preserves the at-most-once invariant. -/
theorem checkSingleDeposit_inv (cfg : MonitorConfig) (w : World) (hwf : w.Wf)
    (st : MonState) (d : DepositAddr) (s : String) (h : SigInv st s) :
    SigInv (checkSingleDeposit cfg w st d) s := by
  unfold checkSingleDeposit
  split
  · exact h
  · exact checkTxs_inv cfg w hwf d _ st s h

/-- The per-cycle fold over waiting deposits preserves the invariant. -/
theorem foldCheck_inv (cfg : MonitorConfig) (w : World) (hwf : w.Wf)
    (ds : List DepositAddr) (st : MonState) (s : String) (h : SigInv st s) :
    SigInv (ds.foldl (fun a d => checkSingleDeposit cfg w a d) st) s := by
  induction ds generalizing st with
  | nil => exact h
  | cons d rest ih =>
    rw [List.foldl_cons]
    exact ih _ (checkSingleDeposit_inv cfg w hwf st d s h)

/-- The expiry sweep touches only deposit rows, never bets or refunds. -/
theorem cleanupFold_tables (w : World) (l : List DepositAddr) (db : DB) :
    ((l.foldl (fun db d => if 0 < w.balance d.address then db
        else updateDepositStatus db d.id "expired" none none none) db).bets = db.bets ∧
      (l.foldl (fun db d => if 0 < w.balance d.address then db
        else updateDepositStatus db d.id "expired" none none none) db).refunds = db.refunds) := by
  induction l generalizing db with
  | nil => exact ⟨rfl, rfl⟩
  | cons d rest ih =>
    rw [List.foldl_cons]
    obtain ⟨h1, h2⟩ := ih (if 0 < w.balance d.address then db
      else updateDepositStatus db d.id "expired" none none none)
    constructor
    · rw [h1]
      split <;> rfl
    · rw [h2]
      split <;> rfl

/-- The expiry sweep preserves the at-most-once invariant. -/
theorem cleanup_inv (w : World) (now : Nat) (st : MonState) (s : String) (h : SigInv st s) :
    SigInv (cleanupExpiredDeposits w now st) s := by
  unfold cleanupExpiredDeposits
  obtain ⟨h1, h2⟩ := cleanupFold_tables w (getExpiredDeposits st.db now) st.db
  have hc : consumedCount ((getExpiredDeposits st.db now).foldl (fun db d =>
      if 0 < w.balance d.address then db
      else updateDepositStatus db d.id "expired" none none none) st.db) s =
      consumedCount st.db s := by
    unfold consumedCount betsWithSig refundsWithSig
    rw [h1, h2]
  constructor
  · show consumedCount _ s ≤ 1
    rw [hc]
    exact h.1
  · intro hge
    rw [hc] at hge
    exact h.2 hge

/-- A full monitor cycle preserves the at-most-once invariant. -/
theorem runCycle_inv (cfg : MonitorConfig) (w : World) (hwf : w.Wf) (now : Nat)
    (st : MonState) (s : String) (h : SigInv st s) :
    SigInv (runCycle cfg w now st) s := by
  unfold runCycle
  exact cleanup_inv w now _ s (foldCheck_inv cfg w hwf _ st s h)

/-- Any sequence of monitor cycles over well-formed ledger states preserves
the at-most-once invariant. -/
theorem runCycles_inv (cfg : MonitorConfig) (cycles : List (World × Nat))
    (hwf : ∀ c ∈ cycles, World.Wf c.1) (st : MonState) (s : String) (h : SigInv st s) :
    SigInv (runCycles cfg cycles st) s := by
  induction cycles generalizing st with
  | nil => exact h
  | cons c rest ih =>
    rw [runCycles]
    exact ih (fun c hc => hwf c (List.mem_cons_of_mem _ hc)) _
      (runCycle_inv cfg c.1 (hwf c (List.mem_cons_self _ _)) c.2 st s h)

/-- Claim C3 (confirmed): starting from a state with no record for an
external transaction signature, any sequence of monitor cycles in one
process - even when the signature is observed repeatedly, on one address or
several - creates at most one bet and at most one refund attributable to
that signature. -/
theorem claim_C3_at_most_once (cfg : MonitorConfig) (cycles : List (World × Nat))
    (st : MonState) (s : String)
    (hwf : ∀ c ∈ cycles, World.Wf c.1)
    (h0 : consumedCount st.db s = 0) :
    betsWithSig (runCycles cfg cycles st).db s ≤ 1 ∧
    refundsWithSig (runCycles cfg cycles st).db s ≤ 1 := by
  have hinv : SigInv st s := ⟨by omega, fun hge => absurd h0 (by omega)⟩
  have hend := runCycles_inv cfg cycles hwf st s hinv
  have hle := hend.1
  unfold consumedCount at hle
  omega

/-- Claim C3 (witness): two cycles observing a ledger that reports the same
transaction t1 twice in the address history still produce at most one bet
and at most one refund for t1 (the run in fact confirms the deposit exactly
once). -/
theorem claim_C3_witness :
    betsWithSig (runCycles cfgStd cyclesC3 stC3).db "t1" ≤ 1 ∧
    refundsWithSig (runCycles cfgStd cyclesC3 stC3).db "t1" ≤ 1 :=
  claim_C3_at_most_once cfgStd cyclesC3 stC3 "t1" (by decide) (by decide)
